import Mathlib

/-!
Verification of the AP_DCC_library DCC decoder.

This file gives a shallow embedding of the library's packet assembler
(`sup_isr_assemble_packet.h`), the main dispatch (`Dcc::input` in
`AP_DCC_library.cpp`), the loco decoder (`LocoMessage::analyse` in
`sup_loco.cpp`), the accessory decoder (`AccMessage::analyse` in
`sup_acc.cpp`) and the CV access decoder (`sup_cv.cpp`), and proves
properties of the natural-language specification against it.

Machine integers are modelled as `Nat` with explicit `% 2^w` where the
C code can wrap (`uint8_t` counters, `uint16_t` addresses, the
`unsigned long` millisecond clock).  A DCC packet is a `List Nat` of
its bytes; `dccMessage.data[i]` becomes `p.getD i 0` and
`dccMessage.size` becomes `p.length`.
-/

namespace APDCC

/-- `Dcc::CmdType_t` from `AP_DCC_library.h`, including the binary-state
command types used by the v1.1.0 `sup_loco.cpp`. -/
inductive CmdType where
  | Unknown
  | IgnoreCmd
  | ResetCmd
  | SomeLocoSpeedFlag
  | SomeLocoMovesFlag
  | MyLocoSpeedCmd
  | MyEmergencyStopCmd
  | MyLocoF0F4Cmd
  | MyLocoF5F8Cmd
  | MyLocoF9F12Cmd
  | MyLocoF13F20Cmd
  | MyLocoF21F28Cmd
  | MyLocoF29F36Cmd
  | MyLocoF37F44Cmd
  | MyLocoF45F52Cmd
  | MyLocoF53F60Cmd
  | MyLocoF61F68Cmd
  | MyBinaryStateCmd
  | MyBinaryStateResetCmd
  | AnyAccessoryCmd
  | MyAccessoryCmd
  | MyPomCmd
  | SmCmd
deriving DecidableEq, Repr

/-- `CvAccess::operation_t`. -/
inductive CvOperation where
  | reserved
  | verifyByte
  | bitManipulation
  | writeByte
deriving DecidableEq, Repr

/-- `Accessory::commandType_t` (basic vs extended accessory command). -/
inductive AccCommand where
  | basic
  | extended
deriving DecidableEq, Repr

/-- The `Loco` state record (attributes of the `Loco` class plus the
binary-state fields of the v1.1.0 version).  In the C source the five
bytes `F29F36 .. F61F68` share a union with the 64-bit `F29_F68`; here
the fields are kept separately, and the binary-state decoder (Step 9)
writes `F29_F68` exactly as the source does. -/
structure Loco where
  address : Nat
  longAddress : Bool
  emergencyStop : Bool
  speed : Nat
  forward : Bool
  F0F4 : Nat
  F5F8 : Nat
  F9F12 : Nat
  F13F20 : Nat
  F21F28 : Nat
  F29F36 : Nat
  F37F44 : Nat
  F45F52 : Nat
  F53F60 : Nat
  F61F68 : Nat
  F29_F68 : Nat
  binaryStateNumber : Nat
  binaryStateValue : Bool
deriving DecidableEq, Repr

/-- The `Accessory` state record (`accCmd`). -/
structure Accessory where
  myMaster : Nat
  decoderAddress : Nat
  outputAddress : Nat
  device : Nat
  turnout : Nat
  position : Nat
  activate : Nat
  signalHead : Nat
  command : AccCommand
deriving DecidableEq, Repr

/-- The `CvAccess` state record (`cvCmd`). -/
structure CvAccess where
  operation : CvOperation
  number : Nat
  value : Nat
  writecmd : Nat
  bitvalue : Nat
  bitposition : Nat
deriving DecidableEq, Repr

/-- `myMaster` value `Roco = 0`. -/
def Roco : Nat := 0
/-- `myMaster` value `Lenz = 1` (the default). -/
def Lenz : Nat := 1
/-- `myMaster` value `OpenDCC = 2`. -/
def OpenDCC : Nat := 2

/-- `#define MaxDccSize 6` from `sup_isr.h`. -/
def MaxDccSize : Nat := 6

/-- `const unsigned long SmTimeOut = 40` from `sup_cv.h`. -/
def SmTimeOut : Nat := 40

/-- The whole mutable decoder state visible to the polled side:
`locoCmd`, `accCmd`, `cvCmd`, the address filters of `LocoMessage` and
`AccMessage`, the retransmission fields of `AccMessage`, the `Backup`
object of `sup_cv.cpp` (its `data`/`size` pair is one list) and the
`CvMessage` service-mode fields, plus `Dcc::errorXOR`. -/
structure DecState where
  loco : Loco
  locoFirst : Nat
  locoLast : Nat
  acc : Accessory
  accAddrOld : Nat
  deviceOld : Nat
  byte1Old : Nat
  byte2Old : Nat
  accFirst : Nat
  accLast : Nat
  cv : CvAccess
  backupData : List Nat
  backupCount : Nat
  inServiceMode : Bool
  smTime : Nat
  errorXOR : Nat
deriving DecidableEq, Repr

/-- `unsigned long` subtraction `a - b` as the AVR C code computes it
for `millis()` differences (wraparound modulo `2^32`). -/
def ulongSub (a b : Nat) : Nat :=
  (a + 4294967296 - b % 4294967296) % 4294967296

/-- `CvAccess::writeBit` from `AP_DCC_library.cpp`:
`bitSet(data, bitposition)` is `data | (1 << pos)` and
`bitClear(data, bitposition)` is `data & ~(1 << pos)` (the `uint32`
complement, truncated to `uint8_t` on return). -/
def CvAccess.writeBit (cv : CvAccess) (data : Nat) : Nat :=
  if cv.bitvalue = 1 then (data ||| (1 <<< cv.bitposition)) % 256
  else (data &&& (4294967295 ^^^ (1 <<< cv.bitposition))) % 256

/-- `CvAccess::verifyBit` from `AP_DCC_library.cpp`:
`bitRead(data, bitposition)` is `(data >> pos) & 1`. -/
def CvAccess.verifyBit (cv : CvAccess) (data : Nat) : Bool :=
  (data >>> cv.bitposition) &&& 1 = cv.bitvalue

/-- `LocoMessage::reset_speed` (v1.1.0 `sup_loco.cpp`). -/
def resetSpeed (st : DecState) : DecState :=
  { st with loco := { st.loco with
      speed := 0, forward := true,
      F0F4 := 0, F5F8 := 0, F9F12 := 0, F13F20 := 0, F21F28 := 0,
      F29F36 := 0, F37F44 := 0, F45F52 := 0, F53F60 := 0, F61F68 := 0,
      F29_F68 := 0, binaryStateNumber := 0, binaryStateValue := false } }

/-- `Backup::identical` from `sup_cv.cpp`.  The backup stores the bytes
and size of the previous CV-access message (here: one list) and a
`uint8_t` repeat counter.  Returns the `accept` flag together with the
new backup contents and counter.  `Backup::copy` sets the counter
to 1. -/
def backupIdentical (p bd : List Nat) (bc : Nat) : Bool × List Nat × Nat :=
  if p.length = bd.length then
    if p = bd then
      let c := (bc + 1) % 256
      (decide (c = 2), bd, c)
    else (false, p, 1)
  else (false, p, 1)

/-- The CC bits of a CV access instruction byte (`sup_cv.cpp`):
00 reserved, 01 verify byte, 10 bit manipulation, 11 write byte. -/
def ccOperation (byte1 : Nat) : CvOperation :=
  match (byte1 &&& 0b00001100) >>> 2 with
  | 0 => CvOperation.reserved
  | 1 => CvOperation.verifyByte
  | 2 => CvOperation.bitManipulation
  | _ => CvOperation.writeByte

/-- `CvMessage::analyseSM` from `sup_cv.cpp`.  `now` is the value of
`millis()` at the time of the call. -/
def analyseSM (now : Nat) (p : List Nat) (st : DecState) : CmdType × DecState :=
  let byte1 := p.getD 0 0
  let byte2 := p.getD 1 0
  let byte3 := p.getD 2 0
  if SmTimeOut ≤ ulongSub now st.smTime then
    (CmdType.Unknown,
     { st with inServiceMode := false, backupData := [], backupCount := 0 })
  else if byte1 = 0b00000000 ∧ byte2 = 0b00000000 then
    (CmdType.IgnoreCmd, { st with smTime := now })
  else if byte1 = 0b11111111 then
    (CmdType.IgnoreCmd, { st with smTime := now })
  else if byte1 &&& 0b11110000 = 0b01110000 then
    let st := { st with smTime := now }
    if p.length = 4 then
      let r := backupIdentical p st.backupData st.backupCount
      let st := { st with backupData := r.2.1, backupCount := r.2.2 }
      if r.1 then
        let op := ccOperation byte1
        let cv := { st.cv with
          operation := op
          number := ((byte1 &&& 0b00000011) <<< 8) + byte2 + 1
          value := byte3 }
        let cv := if op = CvOperation.bitManipulation then
            { cv with
              writecmd := (byte3 &&& 0b00010000) >>> 4
              bitvalue := (byte3 &&& 0b00001000) >>> 3
              bitposition := byte3 &&& 0b00000111 }
          else cv
        (CmdType.SmCmd, { st with cv := cv })
      else (CmdType.IgnoreCmd, st)
    else (CmdType.IgnoreCmd, st)
  else (CmdType.IgnoreCmd, st)

/-- `CvMessage::analysePoM` from `sup_cv.cpp`. -/
def analysePoM (p : List Nat) (st : DecState) : CmdType × DecState :=
  let offset := if p.length = 6 then 2 else 1
  let r := backupIdentical p st.backupData st.backupCount
  let st := { st with backupData := r.2.1, backupCount := r.2.2 }
  if r.1 then
    let byte1 := p.getD offset 0
    let byte2 := p.getD (offset + 1) 0
    let byte3 := p.getD (offset + 2) 0
    let op := ccOperation byte1
    let cv := { st.cv with
      operation := op
      number := ((byte1 &&& 0b00000011) <<< 8) + byte2 + 1
      value := byte3 }
    let cv := if op = CvOperation.bitManipulation then
        { cv with
          writecmd := (byte3 &&& 0b00010000) >>> 4
          bitvalue := (byte3 &&& 0b00001000) >>> 3
          bitposition := byte3 &&& 0b00000111 }
      else cv
    (CmdType.MyPomCmd, { st with cv := cv })
  else (CmdType.IgnoreCmd, st)

/-- `Dcc::analyze_broadcast_message` from `AP_DCC_library.cpp`.  Note
the source's literals `0b0100001` (33) and `0b0100000` (32) are kept
exactly as written there. -/
def analyzeBroadcastMessage (now : Nat) (p : List Nat) (st : DecState) :
    CmdType × DecState :=
  if p.getD 1 0 = 0 then
    let st := { st with inServiceMode := true, smTime := now }
    (CmdType.ResetCmd, resetSpeed st)
  else if p.getD 1 0 &&& 0b01000001 = 0b0100001 then
    (CmdType.MyEmergencyStopCmd, resetSpeed st)
  else if p.getD 1 0 &&& 0b01000001 = 0b0100000 then
    (CmdType.MyLocoSpeedCmd, resetSpeed st)
  else (CmdType.IgnoreCmd, st)

/-- `LocoMessage::IsMyAddress`. -/
def locoIsMyAddress (st : DecState) : Bool :=
  st.locoFirst ≤ st.loco.address ∧ st.loco.address ≤ st.locoLast

/-- `bitSet64` from `sup_loco.cpp`: `v | (1ULL << n)`. -/
def bitSet64 (v n : Nat) : Nat := (v ||| (1 <<< n)) % 18446744073709551616

/-- `bitClear64` from `sup_loco.cpp`: `v & ~(1ULL << n)`. -/
def bitClear64 (v n : Nat) : Nat :=
  v &&& (18446744073709551615 ^^^ (1 <<< n))

/-- Step 9A of `LocoMessage::analyse`: the `stateNumber` computation,
verbatim from the v1.1.0 `sup_loco.cpp` -- including the source
expression `(dccMessage.data[3]) & (0b01111111 + dccMessage.data[4] *
256)` of the long-address long-form branch. -/
def binaryStateNumberOf (longAddress : Bool) (instructionByte : Nat)
    (p : List Nat) : Nat :=
  if longAddress then
    if instructionByte = 0b11000000 then
      (p.getD 3 0) &&& (0b01111111 + (p.getD 4 0) * 256)
    else (p.getD 3 0) &&& 0b01111111
  else
    if instructionByte = 0b11000000 then
      ((p.getD 2 0) &&& 0b01111111) + (p.getD 3 0) * 256
    else (p.getD 2 0) &&& 0b01111111

/-- Step 9A: the `stateValue` bit (bit 7 of the first data byte). -/
def binaryStateValueOf (longAddress : Bool) (p : List Nat) : Bool :=
  if longAddress then (p.getD 3 0) &&& 0b10000000 ≠ 0
  else (p.getD 2 0) &&& 0b10000000 ≠ 0

/-- Step 9 of `LocoMessage::analyse` (binary state commands, RCN-212
sections 2.3.5 and 2.3.6) from the v1.1.0 `sup_loco.cpp`. -/
def locoBinaryState (instructionByte : Nat) (p : List Nat) (st : DecState) :
    CmdType × DecState :=
  let stateNumber := binaryStateNumberOf st.loco.longAddress instructionByte p
  let stateValue : Bool := binaryStateValueOf st.loco.longAddress p
  if st.loco.binaryStateNumber = stateNumber ∧
     st.loco.binaryStateValue = stateValue then
    (CmdType.IgnoreCmd, st)
  else
    let st := { st with loco := { st.loco with
      binaryStateNumber := stateNumber, binaryStateValue := stateValue } }
    if stateNumber = 0 then
      (CmdType.MyBinaryStateResetCmd,
       { st with loco := { st.loco with
           F29_F68 := if stateValue then 0xFFFFFFFFFF else 0 } })
    else if stateNumber ≤ 28 then
      (CmdType.IgnoreCmd, st)
    else if stateNumber ≤ 68 then
      let st := { st with loco := { st.loco with
        F29_F68 := if stateValue then bitSet64 st.loco.F29_F68 (stateNumber - 29)
                   else bitClear64 st.loco.F29_F68 (stateNumber - 29) } }
      if stateNumber ≤ 36 then (CmdType.MyLocoF29F36Cmd, st)
      else if stateNumber ≤ 44 then (CmdType.MyLocoF37F44Cmd, st)
      else if stateNumber ≤ 52 then (CmdType.MyLocoF45F52Cmd, st)
      else if stateNumber ≤ 60 then (CmdType.MyLocoF53F60Cmd, st)
      else (CmdType.MyLocoF61F68Cmd, st)
    else (CmdType.MyBinaryStateCmd, st)

/-- Step 2A of `LocoMessage::analyse`: the raw 5-bit speed value
`((instructionByte & 0b00001111) << 1) + ((instructionByte &
0b00010000) >> 4)` (instruction bit 4 becomes the least significant
bit of the field). -/
def raw28 (ib : Nat) : Nat :=
  ((ib &&& 0b00001111) <<< 1) + ((ib &&& 0b00010000) >>> 4)

/-- Step 2A: raw values 2 and 3 represent emergency stop. -/
def estop28 (ib : Nat) : Bool := decide (2 ≤ raw28 ib ∧ raw28 ib ≤ 3)

/-- Step 2A: raw values 0..3 represent speed 0; step 1 is coded as
raw 4. -/
def speed28 (ib : Nat) : Nat := if raw28 ib ≤ 3 then 0 else raw28 ib - 3

/-- Step 2A: the direction bit (instruction bit 5). -/
def fwd28 (ib : Nat) : Bool := decide (ib &&& 0b00100000 ≠ 0)

/-- Step 2C of `LocoMessage::analyse`: dispatch of a decoded speed
command (retransmission filtering, emergency stop, speed/direction
update, and the some-loco flags when the address is not ours). -/
def locoSpeedDispatch (speed : Nat) (forward emergencyStop : Bool)
    (st : DecState) : CmdType × DecState :=
  if locoIsMyAddress st then
    if st.loco.emergencyStop = emergencyStop ∧ st.loco.speed = speed ∧
       st.loco.forward = forward then
      (CmdType.IgnoreCmd, st)
    else if emergencyStop then
      (CmdType.MyEmergencyStopCmd,
       { st with loco := { st.loco with speed := 0, emergencyStop := true } })
    else
      (CmdType.MyLocoSpeedCmd,
       { st with loco := { st.loco with
           speed := speed, emergencyStop := false, forward := forward } })
  else
    if 0 < speed then (CmdType.SomeLocoMovesFlag, st)
    else (CmdType.SomeLocoSpeedFlag, st)

/-- Step 9 entry of `LocoMessage::analyse`: binary state commands are
the short form `1101-1101` or the long form `1100-0000`; anything else
falls through to the final `IgnoreCmd`. -/
def locoStep9 (instructionByte : Nat) (p : List Nat) (st : DecState) :
    CmdType × DecState :=
  if instructionByte = 0b11011101 ∨ instructionByte = 0b11000000 then
    locoBinaryState instructionByte p st
  else (CmdType.IgnoreCmd, st)

/-- Step 8 of `LocoMessage::analyse`: the function data byte is
`data[3]` for 14-bit addresses and `data[2]` for 7-bit addresses. -/
def locoStep8Data (longAddress : Bool) (p : List Nat) : Nat :=
  if longAddress then p.getD 3 0 else p.getD 2 0

/-- Steps 3 to 9 of `LocoMessage::analyse` (everything after the speed
commands: address filter, PoM, reset, function groups, binary
states). -/
def locoSteps3to9 (instructionByte : Nat) (p : List Nat) (st : DecState) :
    CmdType × DecState :=
  -- Step 3: ignore all remaining commands unless intended for this decoder
  if ¬ locoIsMyAddress st then (CmdType.IgnoreCmd, st)
  -- Step 4: Configuration Variable Access Instruction (PoM long form)
  else if instructionByte &&& 0b11110000 = 0b11100000 then analysePoM p st
  -- Step 5: reset packet
  else if instructionByte = 0b00000000 then (CmdType.ResetCmd, resetSpeed st)
  -- Step 6: function group one (F0-F4)
  else if instructionByte &&& 0b11100000 = 0b10000000 then
    if st.loco.F0F4 = instructionByte &&& 0b00011111 then (CmdType.IgnoreCmd, st)
    else
      (CmdType.MyLocoF0F4Cmd,
       { st with loco := { st.loco with F0F4 := instructionByte &&& 0b00011111 } })
  -- Step 7: function group two (F5-F12)
  else if instructionByte &&& 0b11100000 = 0b10100000 then
    if instructionByte &&& 0b00010000 = 0b00010000 then
      if st.loco.F5F8 = instructionByte &&& 0b00001111 then (CmdType.IgnoreCmd, st)
      else
        (CmdType.MyLocoF5F8Cmd,
         { st with loco := { st.loco with F5F8 := instructionByte &&& 0b00001111 } })
    else
      if st.loco.F9F12 = instructionByte &&& 0b00001111 then (CmdType.IgnoreCmd, st)
      else
        (CmdType.MyLocoF9F12Cmd,
         { st with loco := { st.loco with F9F12 := instructionByte &&& 0b00001111 } })
  -- Step 8: function groups F13-F68 (1101-1XXX DDDD-DDDD); an
  -- unmatched selector (101 = binary state short form) falls through
  -- to step 9, as does any instruction byte not matching the mask
  else if instructionByte &&& 0b11111000 = 0b11011000 then
    if instructionByte &&& 0b00000111 = 0b110 then
      if st.loco.F13F20 = locoStep8Data st.loco.longAddress p then
        (CmdType.IgnoreCmd, st)
      else
        (CmdType.MyLocoF13F20Cmd, { st with loco := { st.loco with
           F13F20 := locoStep8Data st.loco.longAddress p } })
    else if instructionByte &&& 0b00000111 = 0b111 then
      if st.loco.F21F28 = locoStep8Data st.loco.longAddress p then
        (CmdType.IgnoreCmd, st)
      else
        (CmdType.MyLocoF21F28Cmd, { st with loco := { st.loco with
           F21F28 := locoStep8Data st.loco.longAddress p } })
    else if instructionByte &&& 0b00000111 = 0b000 then
      if st.loco.F29F36 = locoStep8Data st.loco.longAddress p then
        (CmdType.IgnoreCmd, st)
      else
        (CmdType.MyLocoF29F36Cmd, { st with loco := { st.loco with
           F29F36 := locoStep8Data st.loco.longAddress p } })
    else if instructionByte &&& 0b00000111 = 0b001 then
      if st.loco.F37F44 = locoStep8Data st.loco.longAddress p then
        (CmdType.IgnoreCmd, st)
      else
        (CmdType.MyLocoF37F44Cmd, { st with loco := { st.loco with
           F37F44 := locoStep8Data st.loco.longAddress p } })
    else if instructionByte &&& 0b00000111 = 0b010 then
      if st.loco.F45F52 = locoStep8Data st.loco.longAddress p then
        (CmdType.IgnoreCmd, st)
      else
        (CmdType.MyLocoF45F52Cmd, { st with loco := { st.loco with
           F45F52 := locoStep8Data st.loco.longAddress p } })
    else if instructionByte &&& 0b00000111 = 0b011 then
      if st.loco.F53F60 = locoStep8Data st.loco.longAddress p then
        (CmdType.IgnoreCmd, st)
      else
        (CmdType.MyLocoF53F60Cmd, { st with loco := { st.loco with
           F53F60 := locoStep8Data st.loco.longAddress p } })
    else if instructionByte &&& 0b00000111 = 0b100 then
      if st.loco.F61F68 = locoStep8Data st.loco.longAddress p then
        (CmdType.IgnoreCmd, st)
      else
        (CmdType.MyLocoF61F68Cmd, { st with loco := { st.loco with
           F61F68 := locoStep8Data st.loco.longAddress p } })
    else locoStep9 instructionByte p st
  else locoStep9 instructionByte p st

/-- Step 1 of `LocoMessage::analyse`: the decoded loco address.  For a
14-bit address (bit 7 of `data[0]` set) it is
`(data[0] & 0b00111111) << 8 | data[1]`, for a 7-bit address it is
`data[0] & 0b01111111`. -/
def locoAddressOf (p : List Nat) : Nat :=
  if p.getD 0 0 &&& 0b10000000 ≠ 0 then
    ((p.getD 0 0 &&& 0b00111111) <<< 8) ||| p.getD 1 0
  else p.getD 0 0 &&& 0b01111111

/-- Step 1 of `LocoMessage::analyse`: the instruction byte, `data[2]`
for a 14-bit address and `data[1]` for a 7-bit address. -/
def locoInstructionByte (p : List Nat) : Nat :=
  if p.getD 0 0 &&& 0b10000000 ≠ 0 then p.getD 2 0 else p.getD 1 0

/-- `LocoMessage::analyse` from the v1.1.0 `sup_loco.cpp` (the version
with binary-state support; step numbering follows the source). -/
def locoAnalyse (p : List Nat) (st : DecState) : CmdType × DecState :=
  let byte0 := p.getD 0 0
  -- Step 1: address and instruction byte
  let longAddress : Bool := decide (byte0 &&& 0b10000000 ≠ 0)
  let address := locoAddressOf p
  let instructionByte := locoInstructionByte p
  let dccData := if longAddress then p.getD 3 0 else p.getD 2 0
  let st := { st with loco := { st.loco with
    longAddress := longAddress, address := address } }
  -- Step 2A / 2B: speed decoding
  let speedCmd14 : Bool := decide (instructionByte &&& 0b11000000 = 0b01000000)
  let speedCmd128 : Bool := decide (instructionByte = 0b00111111)
  if speedCmd14 || speedCmd128 then
    let forward : Bool :=
      if speedCmd14 then fwd28 instructionByte
      else decide (dccData &&& 0b10000000 ≠ 0)
    let raw :=
      if speedCmd14 then raw28 instructionByte
      else dccData &&& 0b01111111
    let emergencyStop : Bool :=
      if speedCmd14 then estop28 instructionByte else decide (raw = 1)
    let speed :=
      if speedCmd14 then speed28 instructionByte
      else (if raw ≤ 1 then raw else raw - 1)
    -- Step 2C
    locoSpeedDispatch speed forward emergencyStop st
  else locoSteps3to9 instructionByte p st

/-- `AccMessage::IsMyAddress` from `sup_acc.cpp` (checked against the
decoder address just stored in `accCmd`). -/
def accIsMyAddress (st : DecState) : Bool :=
  (st.accFirst ≤ st.acc.decoderAddress ∧ st.acc.decoderAddress ≤ st.accLast) ∨
    st.acc.decoderAddress = 2047

/-- Steps 4 and 5 of `AccMessage::analyse` (filtering of messages for
other decoders, retransmission suppression and classification),
operating on the state produced by steps 1-3. -/
def accSteps45 (p : List Nat) (st : DecState) : CmdType × DecState :=
  let byte1 := p.getD 1 0
  let byte2 := p.getD 2 0
  -- Step 4: not intended for this decoder
  if ¬ accIsMyAddress st then
    if st.acc.decoderAddress = st.accAddrOld ∧ st.acc.device = st.deviceOld then
      (CmdType.IgnoreCmd, st)
    else
      (CmdType.AnyAccessoryCmd,
       { st with accAddrOld := st.acc.decoderAddress, deviceOld := st.acc.device })
  else
  -- Step 5: the kind of accessory command
  let st := { st with acc := { st.acc with
    command := if byte1 &&& 0b10000000 ≠ 0 then AccCommand.basic
               else AccCommand.extended } }
  if p.length = 3 then
    if st.acc.decoderAddress = st.accAddrOld ∧ byte1 = st.byte1Old then
      (CmdType.IgnoreCmd, st)
    else
      let st := { st with accAddrOld := st.acc.decoderAddress, byte1Old := byte1 }
      if byte1 &&& 0b10000000 ≠ 0 then (CmdType.MyAccessoryCmd, st)
      else (CmdType.IgnoreCmd, st)
  else if p.length = 4 then
    if st.acc.decoderAddress = st.accAddrOld ∧ byte1 = st.byte1Old ∧
       byte2 = st.byte2Old then
      (CmdType.IgnoreCmd, st)
    else
      (CmdType.MyAccessoryCmd,
       { st with accAddrOld := st.acc.decoderAddress, byte1Old := byte1,
                 byte2Old := byte2,
                 acc := { st.acc with signalHead := byte2 } })
  else if p.length = 5 then (CmdType.IgnoreCmd, st)
  else if p.length = 6 then
    if p.getD 2 0 &&& 0b11110000 = 0b11100000 then analysePoM p st
    else (CmdType.IgnoreCmd, st)
  else (CmdType.IgnoreCmd, st)

/-- `AccMessage::analyse` from `sup_acc.cpp`.  `decoderAddress` and
`outputAddress` are `unsigned int` (16 bit on AVR), so the `msb + lsb
- 1` and `decoderAddress * 4 + turnout` computations wrap modulo
`2^16`; `~data[1]` on a byte is `255 - data[1]` on the low 8 bits. -/
def accAnalyse (p : List Nat) (st : DecState) : CmdType × DecState :=
  -- Step 1: decoder address
  let msb := ((255 - p.getD 1 0 % 256) &&& 0b01110000) <<< 2
  let lsb := p.getD 0 0 &&& 0b00111111
  -- Step 1B: command station correction
  let decoderAddress :=
    if st.acc.myMaster = Lenz then
      ((if lsb = 0 then msb + 64 else msb) + lsb + 65535) % 65536
    else if st.acc.myMaster = Roco then (msb + lsb) % 65536
    else (msb + lsb + 65535) % 65536
  -- Step 2: the other attributes
  let byte1 := p.getD 1 0
  let turnout := ((byte1 &&& 0b00000110) >>> 1) + 1
  let st := { st with acc := { st.acc with
    decoderAddress := decoderAddress
    turnout := turnout
    position := byte1 &&& 0b00000001
    device := byte1 &&& 0b00000111
    activate := (byte1 &&& 0b00001000) >>> 3
    -- Step 3: output address
    outputAddress := (decoderAddress * 4 + turnout) % 65536 } }
  -- Steps 4 and 5
  accSteps45 p st

/-- XOR of all packet bytes, as the loop in `Dcc::input` computes it. -/
def xorBytes (p : List Nat) : Nat := p.foldl (fun a b => a ^^^ b) 0

/-- The normal-operation dispatch of `Dcc::input` (the branch taken
when the packet is not consumed by the service-mode analyser): leave
service mode and route by the first byte's value range. -/
def normalDispatch (now : Nat) (p : List Nat) (st : DecState) :
    CmdType × DecState :=
  let st := { st with inServiceMode := false }
  let firstbyte := p.getD 0 0
  if firstbyte = 0b00000000 then analyzeBroadcastMessage now p st
  else if firstbyte ≤ 0b01111111 then locoAnalyse p st
  else if firstbyte ≤ 0b10111111 then accAnalyse p st
  else if firstbyte ≤ 0b11100111 then locoAnalyse p st
  else (CmdType.IgnoreCmd, st)

/-- `Dcc::input` from `AP_DCC_library.cpp`, for the case that
`dccMessage.isReady` holds; the pending packet is `p` and `now` is
`millis()`.  Returns the classification stored in `dcc.cmdType`
together with the new state (`errorXOR` is a `uint8_t` counter). -/
def dccInput (now : Nat) (p : List Nat) (st : DecState) : CmdType × DecState :=
  if xorBytes p ≠ 0 then
    (CmdType.IgnoreCmd, { st with errorXOR := (st.errorXOR + 1) % 256 })
  else
    let r := if st.inServiceMode then analyseSM now p st
             else (CmdType.Unknown, st)
    if r.1 = CmdType.Unknown then normalDispatch now p r.2
    else r

/-- The four values of `dccrecState` in `sup_isr_assemble_packet.h`. -/
inductive RecState where
  | waitPreamble
  | waitStartBit
  | waitData
  | waitEndBit
deriving DecidableEq, Repr

/-- The packet assembler's state: `dccrecState`, the `uint8_t` bit
counter `dccrec.bitCount`, the bytes accumulated so far
(`dccrec.tempMessage` up to `dccrec.tempMessageSize`), and the
`uint8_t` shift register `tempByte`. -/
structure Assembler where
  state : RecState
  bitCount : Nat
  tempMessage : List Nat
  tempByte : Nat
deriving DecidableEq, Repr

/-- The assembler state right after `DccMessage::attach`
(`dccrecState = WAIT_PREAMBLE; dccrec.bitCount = 0; tempByte = 0`). -/
def Assembler.init : Assembler :=
  { state := RecState.waitPreamble, bitCount := 0, tempMessage := [], tempByte := 0 }

/-- One invocation of the bit-assembly code in
`sup_isr_assemble_packet.h` on a received bit `DccBitVal`.  Returns
the new state and, when the packet end bit is recognised, the packet
published to `dccMessage.data`/`dccMessage.size`. -/
def Assembler.step (a : Assembler) (bit : Bool) : Assembler × Option (List Nat) :=
  let bc := (a.bitCount + 1) % 256
  match a.state with
  | RecState.waitPreamble =>
    if bit then
      if 10 < bc then ({ a with state := RecState.waitStartBit, bitCount := bc }, none)
      else ({ a with bitCount := bc }, none)
    else ({ a with bitCount := 0 }, none)
  | RecState.waitStartBit =>
    if ¬ bit then
      ({ state := RecState.waitData, bitCount := 0, tempMessage := [],
         tempByte := 0 }, none)
    else ({ a with bitCount := bc }, none)
  | RecState.waitData =>
    let tb := ((a.tempByte <<< 1) + (if bit then 1 else 0)) % 256
    if bc = 8 then
      if a.tempMessage.length = MaxDccSize then
        ({ a with state := RecState.waitPreamble, bitCount := 0, tempByte := tb },
         none)
      else
        ({ a with
           state := RecState.waitEndBit
           bitCount := bc
           tempMessage := a.tempMessage ++ [tb]
           tempByte := tb }, none)
    else ({ a with bitCount := bc, tempByte := tb }, none)
  | RecState.waitEndBit =>
    if bit then
      ({ a with state := RecState.waitPreamble, bitCount := 0, tempByte := 0 },
       some a.tempMessage)
    else
      ({ a with state := RecState.waitData, bitCount := 0, tempByte := 0 }, none)

/-- Feed a list of bits to the assembler, collecting every published
packet in order. -/
def Assembler.run (a : Assembler) : List Bool → Assembler × List (List Nat)
  | [] => (a, [])
  | b :: bs =>
    let r := a.step b
    let rest := Assembler.run r.1 bs
    (rest.1, (match r.2 with | none => [] | some m => [m]) ++ rest.2)

/-- Loco state as set up by the `LocoMessage` constructor (address
65535, short address, no emergency stop) followed by `reset_speed`. -/
def loco0 : Loco :=
  { address := 65535, longAddress := false, emergencyStop := false
    speed := 0, forward := true
    F0F4 := 0, F5F8 := 0, F9F12 := 0, F13F20 := 0, F21F28 := 0
    F29F36 := 0, F37F44 := 0, F45F52 := 0, F53F60 := 0, F61F68 := 0
    F29_F68 := 0, binaryStateNumber := 0, binaryStateValue := false }

/-- Accessory state with the default `myMaster = Lenz`. -/
def acc0 : Accessory :=
  { myMaster := Lenz, decoderAddress := 0, outputAddress := 0, device := 0
    turnout := 0, position := 0, activate := 0, signalHead := 0
    command := AccCommand.basic }

/-- CV access state before any CV command was received. -/
def cv0 : CvAccess :=
  { operation := CvOperation.reserved, number := 0, value := 0
    writecmd := 0, bitvalue := 0, bitposition := 0 }

/-- Decoder state right after the constructors ran (`AccMessage`
initialises `decoderAddress_old = 65535`, `byte1_old = 0`,
`byte2_old = 255`; address filters are 65535 until the sketch sets
them; `Dcc::attach` zeroes `errorXOR`). -/
def st0 : DecState :=
  { loco := loco0, locoFirst := 65535, locoLast := 65535
    acc := acc0, accAddrOld := 65535, deviceOld := 0
    byte1Old := 0, byte2Old := 255, accFirst := 65535, accLast := 65535
    cv := cv0, backupData := [], backupCount := 0
    inServiceMode := false, smTime := 0, errorXOR := 0 }

/-!  ## C10: CV bit manipulation operations  -/

/-- `verifyBit` tests exactly the bit at `bitposition` against
`bitvalue` (for `bitvalue ≤ 1`). -/
theorem verifyBit_eq_testBit (cv : CvAccess) (x : Nat) (hv : cv.bitvalue ≤ 1) :
    cv.verifyBit x = (x.testBit cv.bitposition == (cv.bitvalue == 1)) := by
  unfold CvAccess.verifyBit
  rw [Nat.and_one_is_mod, Nat.shiftRight_eq_div_pow, Nat.testBit_to_div_mod]
  rcases Nat.le_one_iff_eq_zero_or_eq_one.mp hv with h | h <;> rw [h] <;>
    rcases Nat.mod_two_eq_zero_or_one (x / 2 ^ cv.bitposition) with h2 | h2 <;>
      simp [h2]

/-- Bit `j` of `writeBit d` (for `j < 32`): the bit at `bitposition`
becomes `bitvalue`, all others are those of `d`. -/
theorem writeBit_testBit (cv : CvAccess) (d : Nat) (hd : d < 256)
    (hp : cv.bitposition < 8) (hv : cv.bitvalue ≤ 1) (j : Nat) (hj : j < 32) :
    (cv.writeBit d).testBit j =
      if j = cv.bitposition then cv.bitvalue == 1 else d.testBit j := by
  unfold CvAccess.writeBit
  rcases Nat.le_one_iff_eq_zero_or_eq_one.mp hv with h | h <;> rw [h]
  · have hm : d &&& (4294967295 ^^^ 1 <<< cv.bitposition) < 256 :=
      lt_of_le_of_lt (Nat.and_le_left) hd
    rw [if_neg (by norm_num), Nat.mod_eq_of_lt hm, Nat.testBit_and,
      Nat.testBit_xor, Nat.one_shiftLeft, Nat.testBit_two_pow]
    have h32 : (4294967295 : Nat) = 2 ^ 32 - 1 := by norm_num
    rw [h32, Nat.testBit_two_pow_sub_one]
    by_cases hjp : j = cv.bitposition
    · subst hjp
      simp [hj]
    · have : ¬ (cv.bitposition = j) := fun hc => hjp hc.symm
      simp [hj, this, hjp]
  · have hb : (1 <<< cv.bitposition : Nat) < 256 := by
      rw [Nat.one_shiftLeft]
      calc 2 ^ cv.bitposition < 2 ^ 8 :=
            Nat.pow_lt_pow_right one_lt_two hp
        _ = 256 := by norm_num
    have hm : d ||| 1 <<< cv.bitposition < 256 := by
      have h256 : (256 : Nat) = 2 ^ 8 := by norm_num
      rw [h256] at hd hb ⊢
      exact Nat.or_lt_two_pow hd hb
    rw [if_pos rfl, Nat.mod_eq_of_lt hm, Nat.testBit_or, Nat.one_shiftLeft,
      Nat.testBit_two_pow]
    by_cases hjp : j = cv.bitposition
    · subst hjp
      simp
    · have : ¬ (cv.bitposition = j) := fun hc => hjp hc.symm
      simp [this, hjp]

/-- C10: for every byte `d`, bit position 0..7 and bit value 0/1
stored in the `CvAccess` object, `writeBit d` returns `d` with exactly
the bit at `bitposition` set to `bitvalue` (all other bits of the byte
unchanged, and the result is again a byte), `verifyBit d` is true
exactly when the bit of `d` at `bitposition` equals `bitvalue`, and
consequently `verifyBit (writeBit d)` always holds.  Both operations
are pure functions of the `CvAccess` record in the embedding, so
neither modifies any state. -/
theorem cv_writeBit_verifyBit_spec (cv : CvAccess) (d : Nat) (hd : d < 256)
    (hp : cv.bitposition < 8) (hv : cv.bitvalue ≤ 1) :
    ((cv.writeBit d).testBit cv.bitposition = (cv.bitvalue == 1)) ∧
    (∀ j, j < 8 → j ≠ cv.bitposition → (cv.writeBit d).testBit j = d.testBit j) ∧
    cv.writeBit d < 256 ∧
    (cv.verifyBit d = (d.testBit cv.bitposition == (cv.bitvalue == 1))) ∧
    cv.verifyBit (cv.writeBit d) = true := by
  have hbit : ∀ j, j < 32 → (cv.writeBit d).testBit j =
      if j = cv.bitposition then cv.bitvalue == 1 else d.testBit j :=
    fun j hj => writeBit_testBit cv d hd hp hv j hj
  have h1 : (cv.writeBit d).testBit cv.bitposition = (cv.bitvalue == 1) := by
    rw [hbit cv.bitposition (by omega), if_pos rfl]
  refine ⟨h1, ?_, ?_, verifyBit_eq_testBit cv d hv, ?_⟩
  · intro j hj hne
    rw [hbit j (by omega), if_neg hne]
  · unfold CvAccess.writeBit
    split <;> exact Nat.mod_lt _ (by norm_num)
  · rw [verifyBit_eq_testBit cv _ hv, h1]
    simp

/-- Witness for `cv_writeBit_verifyBit_spec` at byte `0b10100101`,
bit position 3, bit value 1. -/
theorem cv_writeBit_verifyBit_spec_witness :
    (165 : Nat) < 256 ∧
    (⟨CvOperation.reserved, 0, 0, 0, 1, 3⟩ : CvAccess).bitposition < 8 ∧
    (⟨CvOperation.reserved, 0, 0, 0, 1, 3⟩ : CvAccess).bitvalue ≤ 1 ∧
    (((⟨CvOperation.reserved, 0, 0, 0, 1, 3⟩ : CvAccess).writeBit 165).testBit 3 =
        true) := by
  refine ⟨by decide, by decide, by decide, ?_⟩
  have h := cv_writeBit_verifyBit_spec ⟨CvOperation.reserved, 0, 0, 0, 1, 3⟩ 165
    (by decide) (by decide) (by decide)
  exact h.1

/-!  ## C2: checksum failure on any single-bit corruption  -/

/-- Folding XOR from an arbitrary accumulator. -/
theorem foldl_xor_acc (p : List Nat) (a : Nat) :
    p.foldl (fun x b => x ^^^ b) a = a ^^^ p.foldl (fun x b => x ^^^ b) 0 := by
  induction p generalizing a with
  | nil => simp
  | cons b bs ih =>
    simp only [List.foldl_cons]
    rw [ih (a ^^^ b), ih (0 ^^^ b), Nat.zero_xor, Nat.xor_assoc]

/-- `xorBytes` of a cons. -/
theorem xorBytes_cons (x : Nat) (p : List Nat) :
    xorBytes (x :: p) = x ^^^ xorBytes p := by
  unfold xorBytes
  simp only [List.foldl_cons, Nat.zero_xor]
  exact foldl_xor_acc p x

/-- XOR-ing mask `m` into the byte at position `i` XORs `m` into the
packet checksum. -/
theorem xorBytes_set (p : List Nat) (i m : Nat) (hi : i < p.length) :
    xorBytes (p.set i (p.getD i 0 ^^^ m)) = xorBytes p ^^^ m := by
  induction p generalizing i with
  | nil => simp at hi
  | cons x xs ih =>
    cases i with
    | zero =>
      simp only [List.set_cons_zero, List.getD_cons_zero, xorBytes_cons]
      rw [Nat.xor_assoc, Nat.xor_comm m (xorBytes xs), ← Nat.xor_assoc]
    | succ i =>
      simp only [List.set_cons_succ, List.getD_cons_succ, xorBytes_cons]
      rw [ih i (by simpa using hi), ← Nat.xor_assoc]

/-- C2: flipping any single bit `b` of any byte `i` of a packet whose
bytes XOR to zero makes `Dcc::input` classify the packet as
`IgnoreCmd` (checksum error) and increment the `errorXOR` counter
(a `uint8_t`), while every other component of the decoder state --
loco, accessory and CV records, the duplicate-detection backup, the
service-mode flag and timer -- is left unchanged, and no decoder is
invoked (the result state is exactly the input state with only
`errorXOR` bumped). -/
theorem input_checksum_error (now : Nat) (p : List Nat) (st : DecState)
    (i b : Nat) (hi : i < p.length) (hb : b < 8) (hv : xorBytes p = 0) :
    dccInput now (p.set i (p.getD i 0 ^^^ (1 <<< b))) st =
      (CmdType.IgnoreCmd, { st with errorXOR := (st.errorXOR + 1) % 256 }) := by
  have hx : xorBytes (p.set i (p.getD i 0 ^^^ (1 <<< b))) = 1 <<< b := by
    rw [xorBytes_set p i (1 <<< b) hi, hv, Nat.zero_xor]
  have hne : xorBytes (p.set i (p.getD i 0 ^^^ (1 <<< b))) ≠ 0 := by
    rw [hx, Nat.one_shiftLeft]
    exact (Nat.two_pow_pos b).ne'
  unfold dccInput
  rw [if_pos hne]

/-- Witness for `input_checksum_error`: the valid 3-byte packet
`[3, 100, 103]` with bit 1 of byte 2 flipped. -/
theorem input_checksum_error_witness :
    (2 : Nat) < ([3, 100, 103] : List Nat).length ∧ (1 : Nat) < 8 ∧
    xorBytes [3, 100, 103] = 0 ∧
    dccInput 0 ([3, 100, 103].set 2 (([3, 100, 103].getD 2 0) ^^^ (1 <<< 1))) st0 =
      (CmdType.IgnoreCmd, { st0 with errorXOR := 1 }) := by
  refine ⟨by decide, by decide, by decide, ?_⟩
  have h := input_checksum_error 0 [3, 100, 103] st0 2 1 (by decide) (by decide)
    (by decide)
  simpa using h

/-!  ## C4: broadcast packets (first byte 0x00)  -/

/-- A state whose loco is running (speed 7), for observing whether a
broadcast stop resets the speed. -/
def stC4 : DecState := { st0 with loco := { loco0 with speed := 7 } }

/-- C4 (code bug): the source compares `data[1] & 0b01000001` against
the literals `0b0100001` (= 33) and `0b0100000` (= 32), which the mask
can never produce (only 0, 1, 64, 65 are possible), so the
emergency-stop-all and normal-stop-all broadcast branches are dead:
the valid packets `[0, 0b01000001, 0b01000001]` (pattern `01DC0001`)
and `[0, 0b01000000, 0b01000000]` (pattern `01DC0000`) are classified
`IgnoreCmd` and leave the loco speed untouched, where the claim (and
the comments in the source) require `MyEmergencyStopCmd` resp.
`MyLocoSpeedCmd` with the speed state reset.  The reset branch
(second byte 0) does behave as claimed. -/
theorem broadcast_stop_branches_dead :
    xorBytes [0, 0b01000001, 0b01000001] = 0 ∧
    (0b01000001 &&& 0b01000001 : Nat) = 65 ∧
    dccInput 0 [0, 0b01000001, 0b01000001] stC4 = (CmdType.IgnoreCmd, stC4) ∧
    dccInput 0 [0, 0b01000000, 0b01000000] stC4 = (CmdType.IgnoreCmd, stC4) ∧
    (dccInput 5 [0, 0, 0] stC4).1 = CmdType.ResetCmd ∧
    ((dccInput 5 [0, 0, 0] stC4).2).loco.speed = 0 ∧
    ((dccInput 5 [0, 0, 0] stC4).2).inServiceMode = true ∧
    ((dccInput 5 [0, 0, 0] stC4).2).smTime = 5 := by
  decide

/-!  ## C9: binary state commands  -/

/-- Loco address filter set to address 5. -/
def stC9 : DecState := { st0 with locoFirst := 5, locoLast := 5 }

/-- C9 (code bug): for a 14-bit-address long-form binary state command
the source computes `stateNumber` as
`(data[3]) & (0b01111111 + data[4] * 256)` -- a misplaced `&`; the
sibling 7-bit-address branch computes
`(data[2] & 0b01111111) + data[3] * 256`.  For the valid packet
`[0xC0, 5, 0xC0, 169, 1, 173]` (address 5, long form, true state
number `(169 & 0x7F) + 1*256 = 297`, state value on) the claim
requires all F29-F68 bits to stay unchanged (297 is outside 0 and
29..68), but the code computes `169 & 383 = 41` and sets bit
`41 - 29 = 12` of `F29_F68`, returning `MyLocoF37F44Cmd`. -/
theorem binaryState_long_form_long_address_bug :
    xorBytes [192, 5, 192, 169, 1, 173] = 0 ∧
    ((169 &&& 0b01111111) + 1 * 256 : Nat) = 297 ∧
    (¬ (297 = 0 ∨ (29 ≤ 297 ∧ 297 ≤ 68))) ∧
    stC9.loco.F29_F68 = 0 ∧
    (dccInput 0 [192, 5, 192, 169, 1, 173] stC9).1 = CmdType.MyLocoF37F44Cmd ∧
    ((dccInput 0 [192, 5, 192, 169, 1, 173] stC9).2).loco.F29_F68 = 4096 := by
  decide

/-!  ## C5: 14/28-step speed decoding  -/

/-- Loco address filter set to address 3. -/
def stC5 : DecState := { st0 with locoFirst := 3, locoLast := 3 }

/-- C5 counterexample: the claim's example byte `0b01100100` (= 100)
does not decode to speed 1.  The code moves instruction bit 4 to the
least-significant position of the 5-bit field, giving raw value 8 and
speed `8 - 3 = 5` (forward).  Packet `[3, 100, 103]` is valid and
addressed to this decoder. -/
theorem speed28_sample_byte_decodes_to_5 :
    xorBytes [3, 0b01100100, 103] = 0 ∧
    (dccInput 0 [3, 0b01100100, 103] stC5).1 = CmdType.MyLocoSpeedCmd ∧
    ((dccInput 0 [3, 0b01100100, 103] stC5).2).loco.speed = 5 ∧
    ((dccInput 0 [3, 0b01100100, 103] stC5).2).loco.speed ≠ 1 ∧
    ((dccInput 0 [3, 0b01100100, 103] stC5).2).loco.forward = true := by
  decide

/-- Any packet whose instruction byte (at `data[1]` for 7-bit
addresses, `data[2]` for 14-bit addresses) matches `01XX-XXXX` is a
14/28-step speed instruction: `locoAnalyse` decodes it with
`raw28`/`speed28`/`fwd28`/`estop28` and hands it to
`locoSpeedDispatch` on the state produced by step 1. -/
theorem locoAnalyse_speed14 (p : List Nat) (st : DecState)
    (hib : locoInstructionByte p &&& 0b11000000 = 0b01000000) :
    locoAnalyse p st =
      locoSpeedDispatch (speed28 (locoInstructionByte p))
        (fwd28 (locoInstructionByte p)) (estop28 (locoInstructionByte p))
        { st with loco := { st.loco with
            longAddress := decide (p.getD 0 0 &&& 0b10000000 ≠ 0),
            address := locoAddressOf p } } := by
  unfold locoAnalyse
  simp only [hib]
  norm_num

/-- C5 (amended): for every 14/28-step speed instruction `01RG-GGGG` --
whether the packet carries a 7-bit address (instruction at `data[1]`)
or a 14-bit address (instruction at `data[2]`) -- addressed to this
decoder and not suppressed as a retransmission, the code reassembles
the 5-bit field with instruction bit 4 as its least significant bit
(`raw28`); raw values 2..3 decode to emergency stop with the stored
speed forced to 0, raw values 0..1 decode to an ordinary speed command
with speed 0, and any raw value `≥ 4` decodes to an ordinary speed
command with speed `raw − 3` and the direction taken from instruction
bit 5.  (The claim's example byte `0b01100100` has `raw28 = 8` and so
decodes to speed 5, not 1; see the counterexample.) -/
theorem speed28_decoding (st : DecState) (p : List Nat)
    (hib : locoInstructionByte p &&& 0b11000000 = 0b01000000)
    (hfirst : st.locoFirst ≤ locoAddressOf p)
    (hlast : locoAddressOf p ≤ st.locoLast)
    (hnr : ¬ (st.loco.emergencyStop = estop28 (locoInstructionByte p) ∧
              st.loco.speed = speed28 (locoInstructionByte p) ∧
              st.loco.forward = fwd28 (locoInstructionByte p))) :
    (2 ≤ raw28 (locoInstructionByte p) ∧ raw28 (locoInstructionByte p) ≤ 3 →
       (locoAnalyse p st).1 = CmdType.MyEmergencyStopCmd ∧
       (locoAnalyse p st).2.loco.speed = 0) ∧
    (raw28 (locoInstructionByte p) ≤ 1 →
       (locoAnalyse p st).1 = CmdType.MyLocoSpeedCmd ∧
       (locoAnalyse p st).2.loco.speed = 0) ∧
    (4 ≤ raw28 (locoInstructionByte p) →
       (locoAnalyse p st).1 = CmdType.MyLocoSpeedCmd ∧
       (locoAnalyse p st).2.loco.speed = raw28 (locoInstructionByte p) - 3 ∧
       (locoAnalyse p st).2.loco.forward = fwd28 (locoInstructionByte p)) := by
  rw [locoAnalyse_speed14 p st hib]
  unfold locoSpeedDispatch
  rw [if_pos (by simp [locoIsMyAddress]; exact ⟨hfirst, hlast⟩ :
        locoIsMyAddress { st with loco := { st.loco with
          longAddress := decide (p.getD 0 0 &&& 0b10000000 ≠ 0),
          address := locoAddressOf p } } = true)]
  rw [if_neg hnr]
  refine ⟨?_, ?_, ?_⟩
  · intro h2
    rw [if_pos (by simp [estop28, h2.1, h2.2] :
          estop28 (locoInstructionByte p) = true)]
    simp
  · intro h1
    rw [if_neg (by simp [estop28]; omega : ¬ estop28 (locoInstructionByte p) = true)]
    simp [speed28]
    omega
  · intro h4
    rw [if_neg (by simp [estop28]; omega : ¬ estop28 (locoInstructionByte p) = true)]
    simp [speed28]
    omega

/-- Witness for `speed28_decoding`: the 14-bit-address packet
`[0xC0, 3, 0b01100100, 0xA7]` (address 3, instruction byte at
`data[2]`) on a decoder listening to address 3: raw field 8, speed 5
forward. -/
theorem speed28_decoding_witness :
    (locoInstructionByte [0xC0, 3, 0b01100100, 0xA7] &&& 0b11000000
       = 0b01000000) ∧
    (stC5.locoFirst ≤ locoAddressOf [0xC0, 3, 0b01100100, 0xA7]) ∧
    (locoAddressOf [0xC0, 3, 0b01100100, 0xA7] ≤ stC5.locoLast) ∧
    (¬ (stC5.loco.emergencyStop =
          estop28 (locoInstructionByte [0xC0, 3, 0b01100100, 0xA7]) ∧
        stC5.loco.speed =
          speed28 (locoInstructionByte [0xC0, 3, 0b01100100, 0xA7]) ∧
        stC5.loco.forward =
          fwd28 (locoInstructionByte [0xC0, 3, 0b01100100, 0xA7]))) ∧
    (4 ≤ raw28 (locoInstructionByte [0xC0, 3, 0b01100100, 0xA7]) →
       (locoAnalyse [0xC0, 3, 0b01100100, 0xA7] stC5).1
         = CmdType.MyLocoSpeedCmd ∧
       (locoAnalyse [0xC0, 3, 0b01100100, 0xA7] stC5).2.loco.speed =
         raw28 (locoInstructionByte [0xC0, 3, 0b01100100, 0xA7]) - 3 ∧
       (locoAnalyse [0xC0, 3, 0b01100100, 0xA7] stC5).2.loco.forward =
         fwd28 (locoInstructionByte [0xC0, 3, 0b01100100, 0xA7])) := by
  refine ⟨by decide, by decide, by decide, by decide, ?_⟩
  exact (speed28_decoding stC5 [0xC0, 3, 0b01100100, 0xA7] (by decide)
    (by decide) (by decide) (by decide)).2.2

/-!  ## C3 / C8: the packet assembler  -/

/-- Running the assembler over a concatenation of bit lists. -/
theorem run_append_fst (a : Assembler) (xs ys : List Bool) :
    (a.run (xs ++ ys)).1 = ((a.run xs).1.run ys).1 := by
  induction xs generalizing a with
  | nil => rfl
  | cons x xs ih =>
    simp only [List.cons_append, Assembler.run]
    exact ih _

/-- Packets published over a concatenation of bit lists. -/
theorem run_append_snd (a : Assembler) (xs ys : List Bool) :
    (a.run (xs ++ ys)).2 = (a.run xs).2 ++ ((a.run xs).1.run ys).2 := by
  induction xs generalizing a with
  | nil => rfl
  | cons x xs ih =>
    simp only [List.cons_append, Assembler.run, List.append_eq, ih,
      List.append_assoc]

/-- Further 1-bits keep the assembler in `WAIT_START_BIT` and publish
nothing. -/
theorem run_true_waitStartBit (k : Nat) (a : Assembler)
    (h : a.state = RecState.waitStartBit) :
    (a.run (List.replicate k true)).1.state = RecState.waitStartBit ∧
    (a.run (List.replicate k true)).2 = [] := by
  induction k generalizing a with
  | zero => exact ⟨h, rfl⟩
  | succ k ih =>
    simp only [List.replicate_succ, Assembler.run]
    have hs : (a.step true).1.state = RecState.waitStartBit ∧
        (a.step true).2 = none := by
      simp [Assembler.step, h]
    obtain ⟨h1, h2⟩ := ih (a.step true).1 hs.1
    refine ⟨h1, ?_⟩
    simp [hs.2, h2]

/-- C3: from the freshly attached assembler, exactly ten 1-bits
followed by a 0-bit do not start a packet (the machine stays in
`WAIT_PREAMBLE` with the consecutive-ones count reset to zero and
publishes nothing), while eleven or more 1-bits followed by a 0-bit
put the machine into `WAIT_DATA` (the 0 is consumed as the packet
start bit); and in `WAIT_PREAMBLE` any 0-bit resets the count. -/
theorem preamble_detection (n : Nat) (hn : 11 ≤ n) :
    ((Assembler.init.run (List.replicate 10 true ++ [false])).1.state =
        RecState.waitPreamble ∧
     (Assembler.init.run (List.replicate 10 true ++ [false])).1.bitCount = 0 ∧
     (Assembler.init.run (List.replicate 10 true ++ [false])).2 = []) ∧
    ((Assembler.init.run (List.replicate n true ++ [false])).1.state =
        RecState.waitData ∧
     (Assembler.init.run (List.replicate n true ++ [false])).2 = []) ∧
    (∀ a : Assembler, a.state = RecState.waitPreamble →
       (a.step false).1.state = RecState.waitPreamble ∧
       (a.step false).1.bitCount = 0) := by
  refine ⟨by decide, ?_, ?_⟩
  · obtain ⟨m, rfl⟩ : ∃ m, n = 11 + m := ⟨n - 11, by omega⟩
    have h11 : Assembler.init.run (List.replicate 11 true) =
        ({ state := RecState.waitStartBit, bitCount := 11, tempMessage := [],
           tempByte := 0 }, []) := by decide
    have hsb := run_true_waitStartBit m
      (Assembler.init.run (List.replicate 11 true)).1 (by rw [h11])
    have hfin : ∀ a : Assembler, a.state = RecState.waitStartBit →
        (a.run [false]).1.state = RecState.waitData ∧ (a.run [false]).2 = [] := by
      intro a h
      simp [Assembler.run, Assembler.step, h]
    rw [List.replicate_add]
    constructor
    · rw [run_append_fst, run_append_fst]
      exact (hfin _ hsb.1).1
    · rw [run_append_snd, run_append_snd, run_append_fst]
      rw [hsb.2, (hfin _ hsb.1).2, h11]
      simp
  · intro a h
    constructor <;> simp [Assembler.step, h]

/-- Witness for `preamble_detection` at `n = 12`. -/
theorem preamble_detection_witness :
    (11 : Nat) ≤ 12 ∧
    ((Assembler.init.run (List.replicate 12 true ++ [false])).1.state =
        RecState.waitData ∧
     (Assembler.init.run (List.replicate 12 true ++ [false])).2 = []) :=
  ⟨by decide, (preamble_detection 12 (by decide)).2.1⟩

/-- Invariant of the assembler: at most `MaxDccSize` bytes have been
accumulated, and at least one whenever it waits for an end bit. -/
def Assembler.wf (a : Assembler) : Prop :=
  a.tempMessage.length ≤ 6 ∧
  (a.state = RecState.waitEndBit → 1 ≤ a.tempMessage.length)

/-- The freshly attached assembler satisfies the invariant. -/
theorem init_wf : Assembler.init.wf := by
  constructor <;> simp [Assembler.init, Assembler.wf]

/-- Every step preserves the invariant. -/
theorem step_wf (a : Assembler) (bit : Bool) (h : a.wf) : (a.step bit).1.wf := by
  obtain ⟨s, bc, tm, tb⟩ := a
  obtain ⟨h1, h2⟩ := h
  simp only [Assembler.wf] at *
  cases s <;>
    simp only [Assembler.step, MaxDccSize] <;>
    split_ifs <;>
    constructor <;>
    simp_all <;>
    omega

/-- A packet published by a step from an invariant state has between 1
and `MaxDccSize` bytes. -/
theorem step_publish_bounds (a : Assembler) (bit : Bool) (h : a.wf) (m : List Nat)
    (hm : (a.step bit).2 = some m) : 1 ≤ m.length ∧ m.length ≤ 6 := by
  obtain ⟨s, bc, tm, tb⟩ := a
  obtain ⟨h1, h2⟩ := h
  simp only [Assembler.wf] at h2
  cases s <;>
    simp only [Assembler.step, MaxDccSize] at hm <;>
    split_ifs at hm <;>
    simp_all

/-- Bounds for every packet published during a run from an invariant
state. -/
theorem run_publish_bounds (bits : List Bool) (a : Assembler) (h : a.wf)
    (m : List Nat) (hm : m ∈ (a.run bits).2) :
    1 ≤ m.length ∧ m.length ≤ 6 := by
  induction bits generalizing a with
  | nil => simp [Assembler.run] at hm
  | cons b bs ih =>
    simp only [Assembler.run, List.mem_append] at hm
    rcases hm with hm | hm
    · cases hr : (a.step b).2 with
      | none => rw [hr] at hm; simp at hm
      | some m2 =>
        rw [hr] at hm
        simp at hm
        subst hm
        exact step_publish_bounds a b h _ hr
    · exact ih (a.step b).1 (step_wf a b h) hm

/-- C8 counterexample: eleven 1-bits, a start bit, one all-zero data
byte and an end bit make the assembler publish the one-byte packet
`[0]`: the claimed lower bound of 3 bytes does not hold (the assembler
has no minimum-size check). -/
theorem assembler_publishes_one_byte_packet :
    (Assembler.init.run (List.replicate 11 true ++ [false] ++
        List.replicate 8 false ++ [true])).2 = [[0]] ∧
    ([0] : List Nat).length < 3 := by
  decide

/-- C8 (amended): every packet published by the assembler started from
the attach state has between 1 and 6 bytes: a packet that would exceed
the 6-byte `MaxDccSize` is silently discarded mid-assembly (the state
machine returns to `WAIT_PREAMBLE`), but there is no minimum-size
check, so sizes 1 and 2 can be published (size is only guaranteed
in [1, 6], not in [3, 6]). -/
theorem assembler_published_size_bounds (bits : List Bool) (m : List Nat)
    (hm : m ∈ (Assembler.init.run bits).2) :
    1 ≤ m.length ∧ m.length ≤ 6 :=
  run_publish_bounds bits Assembler.init init_wf m hm

/-- Witness for `assembler_published_size_bounds`: a complete 3-byte
all-zero packet. -/
theorem assembler_published_size_bounds_witness :
    ([0, 0, 0] : List Nat) ∈
      (Assembler.init.run (List.replicate 11 true ++ [false] ++
        List.replicate 8 false ++ [false] ++ List.replicate 8 false ++
        [false] ++ List.replicate 8 false ++ [true])).2 ∧
    1 ≤ ([0, 0, 0] : List Nat).length ∧ ([0, 0, 0] : List Nat).length ≤ 6 := by
  refine ⟨by decide, ?_⟩
  exact assembler_published_size_bounds
    (List.replicate 11 true ++ [false] ++ List.replicate 8 false ++ [false] ++
      List.replicate 8 false ++ [false] ++ List.replicate 8 false ++ [true])
    [0, 0, 0] (by decide)

/-!  ## C1: service-mode duplicate-confirmation rule  -/
/-- `millis() - SmTime` is 0 when both are equal (no timeout). -/
theorem ulongSub_self (a : Nat) (h : a < 4294967296) : ulongSub a a = 0 := by
  unfold ulongSub
  rw [Nat.mod_eq_of_lt h]
  omega

/-- A valid SM-framed 4-byte packet that differs from the stored
backup (here: empty backup) is classified `IgnoreCmd` and stored with
repeat count 1. -/
theorem analyseSM_first (now : Nat) (p : List Nat) (st : DecState)
    (htime : st.smTime = now) (hnow : now < 4294967296)
    (hsm : p.getD 0 0 &&& 0b11110000 = 0b01110000)
    (hlen : p.length = 4) (hbd : st.backupData = []) :
    analyseSM now p st =
      (CmdType.IgnoreCmd,
       { st with smTime := now, backupData := p, backupCount := 1 }) := by
  have h0 : p.getD 0 0 ≠ 0 := by
    rintro h
    rw [h] at hsm
    exact absurd hsm (by decide)
  have h255 : p.getD 0 0 ≠ 255 := by
    rintro h
    rw [h] at hsm
    exact absurd hsm (by decide)
  unfold analyseSM
  rw [htime, ulongSub_self now hnow]
  rw [if_neg (by simp [SmTimeOut] : ¬ SmTimeOut ≤ 0)]
  rw [if_neg (by tauto : ¬ (p.getD 0 0 = 0 ∧ p.getD 1 0 = 0))]
  rw [if_neg h255, if_pos hsm, if_pos hlen]
  unfold backupIdentical
  rw [hbd]
  rw [if_neg (by simp [hlen] : ¬ p.length = ([] : List Nat).length)]
  rfl
/-- A repeat of the stored packet whose incremented `uint8_t` counter
is not 2 is classified `IgnoreCmd`. -/
theorem analyseSM_repeat_reject (now : Nat) (p : List Nat) (st : DecState)
    (htime : st.smTime = now) (hnow : now < 4294967296)
    (hsm : p.getD 0 0 &&& 0b11110000 = 0b01110000)
    (hlen : p.length = 4) (hbd : st.backupData = p)
    (hc : (st.backupCount + 1) % 256 ≠ 2) :
    analyseSM now p st =
      (CmdType.IgnoreCmd,
       { st with smTime := now, backupData := p,
                 backupCount := (st.backupCount + 1) % 256 }) := by
  have h0 : p.getD 0 0 ≠ 0 := by
    rintro h
    rw [h] at hsm
    exact absurd hsm (by decide)
  have h255 : p.getD 0 0 ≠ 255 := by
    rintro h
    rw [h] at hsm
    exact absurd hsm (by decide)
  unfold analyseSM
  rw [htime, ulongSub_self now hnow]
  rw [if_neg (by simp [SmTimeOut] : ¬ SmTimeOut ≤ 0)]
  rw [if_neg (by tauto : ¬ (p.getD 0 0 = 0 ∧ p.getD 1 0 = 0))]
  rw [if_neg h255, if_pos hsm, if_pos hlen]
  unfold backupIdentical
  rw [hbd, if_pos rfl, if_pos rfl]
  simp only [decide_eq_true_eq]
  rw [if_neg hc]

/-- A repeat of the stored packet whose incremented `uint8_t` counter
is exactly 2 is classified `SmCmd`, with CV number, value and
operation decoded from the payload. -/
theorem analyseSM_repeat_accept (now : Nat) (p : List Nat) (st : DecState)
    (htime : st.smTime = now) (hnow : now < 4294967296)
    (hsm : p.getD 0 0 &&& 0b11110000 = 0b01110000)
    (hlen : p.length = 4) (hbd : st.backupData = p)
    (hc : (st.backupCount + 1) % 256 = 2) :
    (analyseSM now p st).1 = CmdType.SmCmd ∧
    (analyseSM now p st).2.backupData = p ∧
    (analyseSM now p st).2.backupCount = 2 ∧
    (analyseSM now p st).2.smTime = now ∧
    (analyseSM now p st).2.inServiceMode = st.inServiceMode ∧
    (analyseSM now p st).2.cv.number =
      ((p.getD 0 0 &&& 0b00000011) <<< 8) + p.getD 1 0 + 1 ∧
    (analyseSM now p st).2.cv.value = p.getD 2 0 ∧
    (analyseSM now p st).2.cv.operation = ccOperation (p.getD 0 0) := by
  have h0 : p.getD 0 0 ≠ 0 := by
    rintro h
    rw [h] at hsm
    exact absurd hsm (by decide)
  have h255 : p.getD 0 0 ≠ 255 := by
    rintro h
    rw [h] at hsm
    exact absurd hsm (by decide)
  unfold analyseSM
  rw [htime, ulongSub_self now hnow]
  rw [if_neg (by simp [SmTimeOut] : ¬ SmTimeOut ≤ 0)]
  rw [if_neg (by tauto : ¬ (p.getD 0 0 = 0 ∧ p.getD 1 0 = 0))]
  rw [if_neg h255, if_pos hsm, if_pos hlen]
  unfold backupIdentical
  rw [hbd, if_pos rfl, if_pos rfl]
  simp only [decide_eq_true_eq]
  rw [if_pos hc, hc]
  refine ⟨rfl, rfl, rfl, rfl, rfl, ?_, ?_, ?_⟩ <;> (split <;> rfl)
/-- `k` consecutive invocations of `analyseSM` on the same packet,
all at the same `millis()` value `now`; component `1` of the result is
the classification returned by the `k`-th invocation. -/
def smRepeat (now : Nat) (p : List Nat) (st : DecState) : Nat → CmdType × DecState
  | 0 => (CmdType.Unknown, st)
  | k+1 => analyseSM now p (smRepeat now p st k).2

/-- The repeat rule of `analyseSM` for `k` consecutive identical
SM direct-CV packets inside the window: the `k`-th yields `SmCmd`
exactly when `k % 256 = 2` (the `uint8_t` repeat counter equals 2),
and on acceptance the CV state holds the decoded number (1..1024),
value and operation. -/
theorem smRepeat_rule (now : Nat) (p : List Nat) (st : DecState)
    (hnow : now < 4294967296) (htime : st.smTime = now)
    (hsm : p.getD 0 0 &&& 0b11110000 = 0b01110000)
    (hlen : p.length = 4) (hb1 : p.getD 1 0 < 256)
    (hbd : st.backupData = []) :
    ∀ k, 1 ≤ k →
    ((smRepeat now p st k).1 =
       if k % 256 = 2 then CmdType.SmCmd else CmdType.IgnoreCmd) ∧
    (smRepeat now p st k).2.backupData = p ∧
    (smRepeat now p st k).2.backupCount = k % 256 ∧
    (smRepeat now p st k).2.smTime = now ∧
    (smRepeat now p st k).2.inServiceMode = st.inServiceMode ∧
    (k % 256 = 2 →
       (smRepeat now p st k).2.cv.number =
         ((p.getD 0 0 &&& 0b00000011) <<< 8) + p.getD 1 0 + 1 ∧
       1 ≤ (smRepeat now p st k).2.cv.number ∧
       (smRepeat now p st k).2.cv.number ≤ 1024 ∧
       (smRepeat now p st k).2.cv.value = p.getD 2 0 ∧
       (smRepeat now p st k).2.cv.operation = ccOperation (p.getD 0 0)) := by
  intro k
  induction k with
  | zero => intro h; exact absurd h (by decide)
  | succ k ih =>
    intro _
    by_cases hk : k = 0
    · subst hk
      have h := analyseSM_first now p st htime hnow hsm hlen hbd
      refine ⟨?_, ?_, ?_, ?_, ?_, fun hc => absurd hc (by decide)⟩ <;>
        simp [smRepeat, h]
    · have hk1 : 1 ≤ k := by omega
      obtain ⟨hres, hbd2, hbc2, ht2, hsm2, hcv2⟩ := ih hk1
      by_cases hacc : (k + 1) % 256 = 2
      · have hcnt : ((smRepeat now p st k).2.backupCount + 1) % 256 = 2 := by
          rw [hbc2]; omega
        have h := analyseSM_repeat_accept now p (smRepeat now p st k).2 ht2 hnow
          hsm hlen hbd2 hcnt
        have hand : p.getD 0 0 &&& 0b00000011 ≤ 3 := Nat.and_le_right
        have hshift : (p.getD 0 0 &&& 0b00000011) <<< 8 ≤ 768 := by
          rw [Nat.shiftLeft_eq]
          calc (p.getD 0 0 &&& 0b00000011) * 2 ^ 8 ≤ 3 * 2 ^ 8 :=
                Nat.mul_le_mul_right _ hand
            _ = 768 := by norm_num
        simp only [smRepeat]
        refine ⟨?_, h.2.1, ?_, h.2.2.2.1, ?_, fun _ => ⟨h.2.2.2.2.2.1, ?_, ?_,
          h.2.2.2.2.2.2.1, h.2.2.2.2.2.2.2⟩⟩
        · rw [h.1, if_pos hacc]
        · rw [h.2.2.1]; omega
        · rw [h.2.2.2.2.1, hsm2]
        · rw [h.2.2.2.2.2.1]; omega
        · rw [h.2.2.2.2.2.1]; omega
      · have hcnt : ((smRepeat now p st k).2.backupCount + 1) % 256 ≠ 2 := by
          rw [hbc2]; omega
        have h := analyseSM_repeat_reject now p (smRepeat now p st k).2 ht2 hnow
          hsm hlen hbd2 hcnt
        refine ⟨?_, ?_, ?_, ?_, ?_, fun hc => absurd hc hacc⟩ <;>
          simp [smRepeat, h, hsm2, hbc2, hacc] <;>
          try omega
/-- State with an open service-mode window (`SmTime = 100`). -/
def stSM : DecState := { st0 with inServiceMode := true, smTime := 100 }

/-- C1 counterexample: for 258 consecutive identical valid SM
direct-CV packets, the 2nd yields `SmCmd` and the 3rd `IgnoreCmd` as
claimed, but the 258th yields `SmCmd` again because the `uint8_t`
repeat counter wraps (`258 % 256 = 2`), contradicting the claim that
a third or later consecutive identical packet always yields
`IgnoreCmd`. -/
theorem analyseSM_counter_wrap_258 :
    xorBytes [119, 2, 10, 127] = 0 ∧
    (smRepeat 100 [119, 2, 10, 127] stSM 2).1 = CmdType.SmCmd ∧
    (smRepeat 100 [119, 2, 10, 127] stSM 3).1 = CmdType.IgnoreCmd ∧
    (smRepeat 100 [119, 2, 10, 127] stSM 258).1 = CmdType.SmCmd := by
  have h := smRepeat_rule 100 [119, 2, 10, 127] stSM (by decide) (by decide)
    (by decide) (by decide) (by decide) (by decide)
  refine ⟨by decide, ?_, ?_, ?_⟩
  · have h2 := (h 2 (by decide)).1
    norm_num at h2
    exact h2
  · have h3 := (h 3 (by decide)).1
    norm_num at h3
    exact h3
  · have h258 := (h 258 (by decide)).1
    norm_num at h258
    exact h258
/-- C1 (amended): inside an open Service-Mode window, a valid 4-byte
SM direct-CV packet differing from the stored one yields `IgnoreCmd`
and is stored with repeat count 1; the `k`-th consecutive identical
packet yields `SmCmd` exactly when the `uint8_t` repeat counter
`k % 256` equals 2 (so on the 2nd, and again on the 258th, 514th, ...
after counter wrap-around), with the CV number decoded as
`((byte1 & 0x03) << 8) + byte2 + 1` (range 1..1024), the CV value
equal to the third payload byte and the operation taken from the CC
bits; every other consecutive identical packet yields `IgnoreCmd`. -/
theorem analyseSM_second_packet_rule (now : Nat) (p : List Nat) (st : DecState)
    (hnow : now < 4294967296) (htime : st.smTime = now)
    (hsm : p.getD 0 0 &&& 0b11110000 = 0b01110000)
    (hlen : p.length = 4) (hb1 : p.getD 1 0 < 256)
    (hbd : st.backupData = []) (k : Nat) (hk : 1 ≤ k) :
    ((smRepeat now p st k).1 =
       if k % 256 = 2 then CmdType.SmCmd else CmdType.IgnoreCmd) ∧
    (smRepeat now p st k).2.backupData = p ∧
    (smRepeat now p st k).2.backupCount = k % 256 ∧
    (smRepeat now p st k).2.smTime = now ∧
    (smRepeat now p st k).2.inServiceMode = st.inServiceMode ∧
    (k % 256 = 2 →
       (smRepeat now p st k).2.cv.number =
         ((p.getD 0 0 &&& 0b00000011) <<< 8) + p.getD 1 0 + 1 ∧
       1 ≤ (smRepeat now p st k).2.cv.number ∧
       (smRepeat now p st k).2.cv.number ≤ 1024 ∧
       (smRepeat now p st k).2.cv.value = p.getD 2 0 ∧
       (smRepeat now p st k).2.cv.operation = ccOperation (p.getD 0 0)) :=
  smRepeat_rule now p st hnow htime hsm hlen hb1 hbd k hk

/-- Witness for `analyseSM_second_packet_rule` at the packet
`[119, 2, 10, 127]` (CV 771, verify byte), `k = 2`. -/
theorem analyseSM_second_packet_rule_witness :
    ((100 : Nat) < 4294967296) ∧ stSM.smTime = 100 ∧
    (([119, 2, 10, 127] : List Nat).getD 0 0 &&& 0b11110000 = 0b01110000) ∧
    ([119, 2, 10, 127] : List Nat).length = 4 ∧
    (([119, 2, 10, 127] : List Nat).getD 1 0 < 256) ∧
    stSM.backupData = [] ∧ (1 : Nat) ≤ 2 ∧
    (((smRepeat 100 [119, 2, 10, 127] stSM 2).1 =
        if 2 % 256 = 2 then CmdType.SmCmd else CmdType.IgnoreCmd) ∧
     (smRepeat 100 [119, 2, 10, 127] stSM 2).2.backupData = [119, 2, 10, 127] ∧
     (smRepeat 100 [119, 2, 10, 127] stSM 2).2.backupCount = 2 % 256 ∧
     (smRepeat 100 [119, 2, 10, 127] stSM 2).2.smTime = 100 ∧
     (smRepeat 100 [119, 2, 10, 127] stSM 2).2.inServiceMode = stSM.inServiceMode ∧
     (2 % 256 = 2 →
        (smRepeat 100 [119, 2, 10, 127] stSM 2).2.cv.number =
          ((([119, 2, 10, 127] : List Nat).getD 0 0 &&& 0b00000011) <<< 8) +
            ([119, 2, 10, 127] : List Nat).getD 1 0 + 1 ∧
        1 ≤ (smRepeat 100 [119, 2, 10, 127] stSM 2).2.cv.number ∧
        (smRepeat 100 [119, 2, 10, 127] stSM 2).2.cv.number ≤ 1024 ∧
        (smRepeat 100 [119, 2, 10, 127] stSM 2).2.cv.value =
          ([119, 2, 10, 127] : List Nat).getD 2 0 ∧
        (smRepeat 100 [119, 2, 10, 127] stSM 2).2.cv.operation =
          ccOperation (([119, 2, 10, 127] : List Nat).getD 0 0))) := by
  refine ⟨by decide, by decide, by decide, by decide, by decide, by decide,
    by decide, ?_⟩
  exact analyseSM_second_packet_rule 100 [119, 2, 10, 127] stSM (by decide)
    (by decide) (by decide) (by decide) (by decide) (by decide) 2 (by decide)

/-!  ## C7: accessory addressing  -/
/-- Steps 4 and 5 never change the address fields computed by
steps 1-3. -/
theorem accSteps45_preserves (p : List Nat) (st : DecState) :
    (accSteps45 p st).2.acc.decoderAddress = st.acc.decoderAddress ∧
    (accSteps45 p st).2.acc.turnout = st.acc.turnout ∧
    (accSteps45 p st).2.acc.outputAddress = st.acc.outputAddress := by
  have hpom : ∀ st2 : DecState, (analysePoM p st2).2.acc = st2.acc := by
    intro st2
    unfold analysePoM
    dsimp only
    split <;> rfl
  unfold accSteps45
  dsimp only
  repeat' split
  all_goals first | exact ⟨rfl, rfl, rfl⟩ | simp [hpom]
set_option maxRecDepth 10000 in
/-- `(y & 0x70) << 2` is the 3-bit field `(y >> 4) & 7` scaled
by 64. -/
theorem and_0x70_shl2_eq (y : Nat) (hy : y < 256) :
    (y &&& 0b01110000) <<< 2 = ((y >>> 4) &&& 0b00000111) * 64 := by
  revert hy
  revert y
  decide

/-- C7: after `AccMessage::analyse`, the turnout is
`((byte1 & 0b110) >> 1) + 1` and lies in 1..4; `outputAddress` equals
`decoderAddress * 4 + turnout` (modulo the 16-bit `unsigned int`
representation, and exactly in the `Lenz` case); with
`myMaster = Lenz`, `decoderAddress = MSB + LSB - 1` where the MSB is
the one's-complemented 3-bit field of byte 1 scaled by 64 and the LSB
is the low 6 bits of byte 0, with the `MSB + 64` compensation applied
exactly when `LSB = 0`; in particular wire bytes encoding MSB = 0,
LSB = 1 decode to `decoderAddress = 0`. -/
theorem acc_addressing (p : List Nat) (st : DecState) :
    (((255 - p.getD 1 0 % 256) &&& 0b01110000) <<< 2 =
      (((255 - p.getD 1 0 % 256) >>> 4) &&& 0b00000111) * 64) ∧
    ((accAnalyse p st).2.acc.turnout =
       ((p.getD 1 0 &&& 0b00000110) >>> 1) + 1 ∧
     1 ≤ (accAnalyse p st).2.acc.turnout ∧
     (accAnalyse p st).2.acc.turnout ≤ 4) ∧
    ((accAnalyse p st).2.acc.outputAddress =
       ((accAnalyse p st).2.acc.decoderAddress * 4 +
         (accAnalyse p st).2.acc.turnout) % 65536) ∧
    (st.acc.myMaster = Lenz →
       ((accAnalyse p st).2.acc.decoderAddress =
          (if p.getD 0 0 &&& 0b00111111 = 0 then
             (((255 - p.getD 1 0 % 256) &&& 0b01110000) <<< 2) + 64
           else ((255 - p.getD 1 0 % 256) &&& 0b01110000) <<< 2) +
            (p.getD 0 0 &&& 0b00111111) - 1 ∧
        (accAnalyse p st).2.acc.outputAddress =
          (accAnalyse p st).2.acc.decoderAddress * 4 +
            (accAnalyse p st).2.acc.turnout)) ∧
    (st.acc.myMaster = Lenz →
       ((255 - p.getD 1 0 % 256) &&& 0b01110000) <<< 2 = 0 →
       p.getD 0 0 &&& 0b00111111 = 1 →
       (accAnalyse p st).2.acc.decoderAddress = 0) := by
  have hylt : 255 - p.getD 1 0 % 256 < 256 := by omega
  have hmsb : ((255 - p.getD 1 0 % 256) &&& 0b01110000) <<< 2 ≤ 448 := by
    rw [Nat.shiftLeft_eq]
    have : (255 - p.getD 1 0 % 256) &&& 0b01110000 ≤ 112 := Nat.and_le_right
    omega
  have hlsb : p.getD 0 0 &&& 0b00111111 ≤ 63 := Nat.and_le_right
  have hturn : (p.getD 1 0 &&& 0b00000110) >>> 1 ≤ 3 := by
    have h6 : p.getD 1 0 &&& 0b00000110 ≤ 6 := Nat.and_le_right
    rw [Nat.shiftRight_eq_div_pow]
    omega
  have hpres := accSteps45_preserves p
  unfold accAnalyse
  dsimp only
  rw [(hpres _).1, (hpres _).2.1, (hpres _).2.2]
  dsimp only
  refine ⟨and_0x70_shl2_eq _ hylt, ⟨rfl, by omega, by omega⟩, rfl, ?_, ?_⟩
  · intro hlenz
    rw [if_pos hlenz]
    constructor
    · split_ifs with h0 <;> omega
    · split_ifs with h0
      · have : ((((255 - p.getD 1 0 % 256) &&& 0b01110000) <<< 2 + 64 +
            (p.getD 0 0 &&& 0b00111111) + 65535) % 65536) ≤ 575 := by omega
        omega
      · have h1 : 1 ≤ p.getD 0 0 &&& 0b00111111 := by omega
        have : ((((255 - p.getD 1 0 % 256) &&& 0b01110000) <<< 2 +
            (p.getD 0 0 &&& 0b00111111) + 65535) % 65536) ≤ 575 := by omega
        omega
  · intro hlenz hm hl
    rw [if_pos hlenz, hm, hl]
    norm_num

/-- Witness for `acc_addressing`: packet `[0x81, 0xF8, 0x00]` with the
default `Lenz` master (MSB field 0, LSB 1, turnout 1). -/
theorem acc_addressing_witness :
    st0.acc.myMaster = Lenz ∧
    ((255 - ([0b10000001, 0b11111000, 0] : List Nat).getD 1 0 % 256) &&&
        0b01110000) <<< 2 = 0 ∧
    ([0b10000001, 0b11111000, 0] : List Nat).getD 0 0 &&& 0b00111111 = 1 ∧
    (accAnalyse [0b10000001, 0b11111000, 0] st0).2.acc.decoderAddress = 0 ∧
    (accAnalyse [0b10000001, 0b11111000, 0] st0).2.acc.outputAddress =
      (accAnalyse [0b10000001, 0b11111000, 0] st0).2.acc.decoderAddress * 4 +
        (accAnalyse [0b10000001, 0b11111000, 0] st0).2.acc.turnout := by
  refine ⟨by decide, by decide, by decide, ?_, ?_⟩
  · exact (acc_addressing [0b10000001, 0b11111000, 0] st0).2.2.2.2 (by decide)
      (by decide) (by decide)
  · exact ((acc_addressing [0b10000001, 0b11111000, 0] st0).2.2.2.1 (by decide)).2

/-!  ## C6: the Service-Mode window  -/
/-- When at least `SmTimeOut` ms have elapsed since `SmTime`,
`analyseSM` closes the window (clears `inServiceMode`, resets the
duplicate-detection backup) and declines the packet with `Unknown`. -/
theorem analyseSM_timeout (now : Nat) (p : List Nat) (st : DecState)
    (hto : SmTimeOut ≤ ulongSub now st.smTime) :
    analyseSM now p st =
      (CmdType.Unknown,
       { st with inServiceMode := false, backupData := [], backupCount := 0 }) := by
  unfold analyseSM
  rw [if_pos hto]

/-- Inside the window, reset packets, idle packets and SM-framed
packets are consumed by `analyseSM` (never `Unknown`), re-arm `SmTime`
to the current `millis()` value, and leave the window open. -/
theorem analyseSM_extends_window (now2 : Nat) (p2 : List Nat) (st : DecState)
    (hlt : ulongSub now2 st.smTime < SmTimeOut)
    (hshape : (p2.getD 0 0 = 0 ∧ p2.getD 1 0 = 0) ∨ p2.getD 0 0 = 255 ∨
              p2.getD 0 0 &&& 0b11110000 = 0b01110000) :
    (analyseSM now2 p2 st).1 ≠ CmdType.Unknown ∧
    (analyseSM now2 p2 st).2.smTime = now2 ∧
    (analyseSM now2 p2 st).2.inServiceMode = st.inServiceMode := by
  unfold analyseSM
  rw [if_neg (by omega : ¬ SmTimeOut ≤ ulongSub now2 st.smTime)]
  rcases hshape with ⟨h0, h1⟩ | h255 | hframe
  · rw [if_pos ⟨h0, h1⟩]
    exact ⟨by simp, rfl, rfl⟩
  · rw [if_neg (by rw [h255]; rintro ⟨hc, -⟩; exact absurd hc (by decide)),
      if_pos h255]
    exact ⟨by simp, rfl, rfl⟩
  · have hn0 : p2.getD 0 0 ≠ 0 := by
      rintro h
      rw [h] at hframe
      exact absurd hframe (by decide)
    have hn255 : p2.getD 0 0 ≠ 255 := by
      rintro h
      rw [h] at hframe
      exact absurd hframe (by decide)
    rw [if_neg (by rintro ⟨hc, -⟩; exact hn0 hc), if_neg hn255, if_pos hframe]
    dsimp only
    split_ifs <;> exact ⟨by simp, rfl, rfl⟩
/-- C6: when `analyseSM` is invoked with `SmTimeOut` (40 ms) or more
elapsed since `SmTime`, it closes the Service-Mode window
(`inServiceMode` cleared, backup reset) and does not accept the packet
as a Service-Mode command (it returns `Unknown`); the same `input()`
call then dispatches the packet through the normal-operation
classification (`normalDispatch`) on the window-closed state.
Conversely, while the window is open, reset packets, idle packets and
SM-framed packets re-arm `SmTime` and keep the window open. -/
theorem serviceMode_rule (now : Nat) (p : List Nat) (st : DecState)
    (hsm : st.inServiceMode = true) (hxor : xorBytes p = 0)
    (hto : SmTimeOut ≤ ulongSub now st.smTime) :
    ((analyseSM now p st).1 = CmdType.Unknown ∧
     (analyseSM now p st).2.inServiceMode = false ∧
     (analyseSM now p st).2.backupData = [] ∧
     (analyseSM now p st).2.backupCount = 0) ∧
    (dccInput now p st =
       normalDispatch now p
         { st with inServiceMode := false, backupData := [], backupCount := 0 }) ∧
    (∀ now2 p2, ulongSub now2 st.smTime < SmTimeOut → xorBytes p2 = 0 →
       ((p2.getD 0 0 = 0 ∧ p2.getD 1 0 = 0) ∨ p2.getD 0 0 = 255 ∨
         p2.getD 0 0 &&& 0b11110000 = 0b01110000) →
       (dccInput now2 p2 st).2.smTime = now2 ∧
       (dccInput now2 p2 st).2.inServiceMode = true) := by
  have hA := analyseSM_timeout now p st hto
  refine ⟨by rw [hA]; exact ⟨rfl, rfl, rfl, rfl⟩, ?_, ?_⟩
  · unfold dccInput
    rw [if_neg (by simp [hxor]), hsm]
    dsimp only
    rw [hA]
    simp
  · intro now2 p2 hlt hxor2 hshape
    have hB := analyseSM_extends_window now2 p2 st hlt hshape
    unfold dccInput
    rw [if_neg (by simp [hxor2])]
    simp [hsm, hB.1, hB.2.1, hB.2.2]

/-- Decoder state with an open service-mode window and `SmTime = 0`. -/
def stT : DecState := { st0 with inServiceMode := true, smTime := 0 }

/-- Witness for `serviceMode_rule`: the valid SM-framed packet
`[116, 2, 10, 124]` arriving 50 ms after `SmTime`. -/
theorem serviceMode_rule_witness :
    stT.inServiceMode = true ∧ xorBytes [116, 2, 10, 124] = 0 ∧
    SmTimeOut ≤ ulongSub 50 stT.smTime ∧
    (analyseSM 50 [116, 2, 10, 124] stT).1 = CmdType.Unknown ∧
    dccInput 50 [116, 2, 10, 124] stT =
      normalDispatch 50 [116, 2, 10, 124]
        { stT with inServiceMode := false, backupData := [], backupCount := 0 } := by
  refine ⟨by decide, by decide, by decide, ?_, ?_⟩
  · exact (serviceMode_rule 50 [116, 2, 10, 124] stT (by decide) (by decide)
      (by decide)).1.1
  · exact (serviceMode_rule 50 [116, 2, 10, 124] stT (by decide) (by decide)
      (by decide)).2.1

end APDCC
